import Mathlib

/-!
Data store with queue support.

A shallow embedding of `Data-Store-with-Queue-Support.go`.

* A Go `string` is a Lean `String`.  Every string that reaches the store comes out of
  `encoding/json`, which only produces valid UTF-8, so a sequence of Unicode code points is
  the right carrier.
* The field `data map[string]string` of `DataStore` is a function `String → Option String`;
  `none` is "key not in the map".
* Every method of `DataStore` holds the store lock for its whole body, so a method is one
  atomic step: a pure function from the store before the call to the store after it and
  the returned values.
* A handler writes an HTTP status (200 unless `WriteHeader` is called) and one JSON
  `Response`; it is a function from the store and the request to the store afterwards and
  the reply.
-/

namespace DataStore

/-! ## Go standard library: `unicode.IsSpace`, `strings.Fields`, `strings.Join` -/

/-- Go `unicode.IsSpace`: the code points with the Unicode White_Space property. -/
def isSpace (r : Char) : Bool :=
  (0x09 ≤ r.toNat && r.toNat ≤ 0x0D) || r.toNat == 0x20 || r.toNat == 0x85 ||
  r.toNat == 0xA0 || r.toNat == 0x1680 || (0x2000 ≤ r.toNat && r.toNat ≤ 0x200A) ||
  r.toNat == 0x2028 || r.toNat == 0x2029 || r.toNat == 0x202F || r.toNat == 0x205F ||
  r.toNat == 0x3000

/-- Scanner behind `strings.Fields`: `cur` is the field read so far (empty when the scanner
is between fields); a white space character closes a non-empty field. -/
def fieldsFrom (cur : List Char) : List Char → List (List Char)
  | [] => if cur = [] then [] else [cur]
  | c :: cs =>
    if isSpace c then
      (if cur = [] then fieldsFrom [] cs else cur :: fieldsFrom [] cs)
    else fieldsFrom (cur ++ [c]) cs

/-- Go `strings.Fields`: the maximal runs of non-white-space characters of `s`, in order;
the empty list when `s` holds only white space. -/
def Fields (s : String) : List String :=
  (fieldsFrom [] s.data).map String.mk

/-- Go `strings.Join`: the elements of `elems` with `sep` between neighbours. -/
def Join : List String → String → String
  | [], _ => ""
  | [a], _ => a
  | a :: b :: rest, sep => a ++ sep ++ Join (b :: rest) sep

/-! ## The store -/

/-- The field `data map[string]string` of `DataStore`. -/
abbrev Store := String → Option String

/-- `NewDataStore`: the empty map. -/
def NewDataStore : Store := fun _ => none

/-- `ds.data[key] = value`. -/
def assign (ds : Store) (key value : String) : Store :=
  fun k => if k = key then some value else ds k

/-- `delete(ds.data, key)`. -/
def remove (ds : Store) (key : String) : Store :=
  fun k => if k = key then none else ds k

/-- `DataStore.Get`: `value, ok := ds.data[key]`; a missing key yields the zero string. -/
def Get (ds : Store) (key : String) : String × Bool :=
  match ds key with
  | some value => (value, true)
  | none => ("", false)

/-- `DataStore.Set`. -/
def Set (ds : Store) (key value : String) : Store :=
  assign ds key value

/-- The loop of `DataStore.QPush`: `queue += value + " "` for each value in order. -/
def appendValues (queue : String) : List String → String
  | [] => queue
  | value :: rest => appendValues (queue ++ (value ++ " ")) rest

/-- `DataStore.QPush`. -/
def QPush (ds : Store) (key : String) (values : List String) : Store :=
  let queue := match ds key with
    | some q => q
    | none => ""
  assign ds key (appendValues queue values)

/-- `DataStore.QPop`: the store afterwards and the returned `(value, ok)`. -/
def QPop (ds : Store) (key : String) : Store × (String × Bool) :=
  match ds key with
  | none => (ds, ("", false))
  | some queue =>
    let values := Fields queue
    if values.length = 0 then (ds, ("", false))
    else
      let value := values.getD (values.length - 1) ""
      (assign ds key (Join (values.take (values.length - 1)) " "), (value, true))

/-- `DataStore.Delete`: the store afterwards and the returned flag. -/
def Delete (ds : Store) (key : String) : Store × Bool :=
  match ds key with
  | some _ => (remove ds key, true)
  | none => (ds, false)

/-! ## Requests, responses and handlers -/

/-- The JSON request; `Options` is a Go map, absent keys are `none`. -/
structure Request where
  Command : String
  Key : String
  Value : String
  Options : String → Option String

/-- The JSON response body. -/
structure Response where
  Success : Bool
  Message : String
  Key : String
  Value : String
  deriving DecidableEq, Repr

/-- What a handler writes: the HTTP status and the encoded `Response`. -/
structure Reply where
  status : Nat
  body : Response
  deriving DecidableEq, Repr

/-- `handleSet`. -/
def handleSet (ds : Store) (req : Request) : Store × Reply :=
  let key := req.Key
  let value := req.Value
  if key = "" then
    (ds, { status := 400,
           body := { Success := false, Message := "Key not provided", Key := "", Value := "" } })
  else if value = "" then
    (ds, { status := 400,
           body := { Success := false, Message := "Value not provided", Key := "", Value := "" } })
  else
    (Set ds key value,
     { status := 200, body := { Success := true, Message := "", Key := key, Value := value } })

/-- `handleGet`. -/
def handleGet (ds : Store) (req : Request) : Store × Reply :=
  let key := req.Key
  let (value, ok) := Get ds key
  if ok = false then
    (ds, { status := 404,
           body := { Success := false, Message := "Key not found", Key := "", Value := "" } })
  else
    (ds, { status := 200, body := { Success := true, Message := "", Key := key, Value := value } })

/-- `handleQPush`. -/
def handleQPush (ds : Store) (req : Request) : Store × Reply :=
  let key := req.Key
  match req.Options "values" with
  | none =>
    (ds, { status := 400,
           body := { Success := false, Message := "Values not provided", Key := "", Value := "" } })
  | some values =>
    (QPush ds key (Fields values),
     { status := 200,
       body := { Success := true, Message := "Values added to queue", Key := key, Value := "" } })

/-- `handleQPop`. -/
def handleQPop (ds : Store) (req : Request) : Store × Reply :=
  let key := req.Key
  let (ds1, value, ok) := QPop ds key
  if ok = false then
    (ds1, { status := 404,
            body := { Success := false, Message := "Queue is empty or does not exist",
                      Key := "", Value := "" } })
  else
    (ds1, { status := 200, body := { Success := true, Message := "", Key := key, Value := value } })

/-! ## Predicates used in the statements -/

/-- No character of `s` is white space. -/
def noSpace (s : String) : Prop := ∀ c ∈ s.data, isSpace c = false

instance (s : String) : Decidable (noSpace s) :=
  inferInstanceAs (Decidable (∀ c ∈ s.data, isSpace c = false))

/-- Every character of `s` is white space (true of the empty string). -/
def allSpace (s : String) : Prop := ∀ c ∈ s.data, isSpace c = true

instance (s : String) : Decidable (allSpace s) :=
  inferInstanceAs (Decidable (∀ c ∈ s.data, isSpace c = true))

/-- The string `q` is empty or ends in a white space character: the shape of every string
that `QPush` leaves in the map. -/
def closedQueue (q : String) : Bool :=
  match q.data.getLast? with
  | none => true
  | some c => isSpace c

/-- The text `QPush` adds for `values`: each value followed by one space. -/
def encode : List String → String
  | [] => ""
  | value :: rest => value ++ " " ++ encode rest

/-- The results of three successive `QPop(k)` calls, first to last. -/
def popThrice (ds : Store) (k : String) : (String × Bool) × (String × Bool) × (String × Bool) :=
  let r1 := QPop ds k
  let r2 := QPop r1.1 k
  let r3 := QPop r2.1 k
  (r1.2, r2.2, r3.2)

/-- A request on key `k` with no value and no options. -/
def keyRequest (command k : String) : Request :=
  ⟨command, k, "", fun _ => none⟩

/-- A `QPUSH` request on key `k` whose option `values` is `vals`. -/
def qpushRequest (k vals : String) : Request :=
  ⟨"QPUSH", k, "", fun o => if o = "values" then some vals else none⟩

/-- A `SET` request. -/
def setRequest (k v : String) : Request :=
  ⟨"SET", k, v, fun _ => none⟩

/-- The results of `n` successive `QPop(k)` calls, first to last, and the store after them. -/
def popMany (ds : Store) (k : String) : Nat → Store × List (String × Bool)
  | 0 => (ds, [])
  | n + 1 =>
    let r := QPop ds k
    let rest := popMany r.1 k n
    (rest.1, r.2 :: rest.2)

/-! ## The blocking pop

`handleBQPop` works on parts of the program that the source uses but does not declare: the
field `ds.store`, the field `ds.locks` and the request field `Args`.  They are modelled here
from the way the handler uses them. -/

/-- Modelled from the spec: the field `ds.store` that `handleBQPop` reads with `Load` is not
declared in `DataStore`.  The handler uses the loaded value through `Len`, `Back` and
`Remove`, the spec's `Queue(sequence of string)` pushed and popped at the tail: a map from
keys to lists of strings, `none` for a key that `Load` does not find. -/
abbrev QueueStore := String → Option (List String)

/-- An empty `ds.store`. -/
def NewQueueStore : QueueStore := fun _ => none

/-- The queue under `key` becomes `queue`. -/
def setQueue (store : QueueStore) (key : String) (queue : List String) : QueueStore :=
  fun k => if k = key then some queue else store k

/-- A `float64` as returned by `strconv.ParseFloat`: a finite value, an infinity or NaN. -/
inductive Float64 where
  | finite (q : ℚ)
  | posInf
  | negInf
  | nan
  deriving DecidableEq

/-- The comparison `timeout == 0`. -/
def Float64.isZero : Float64 → Bool
  | .finite q => decide (q = 0)
  | _ => false

/-- The float is a negative number. -/
def Float64.isNegative : Float64 → Bool
  | .finite q => decide (q < 0)
  | .negInf => true
  | _ => false

/-- The comparison `elapsedTime >= timeout` for a finite reading `elapsedTime`. -/
def reached (elapsedTime : ℚ) : Float64 → Bool
  | .finite q => decide (q ≤ elapsedTime)
  | .posInf => false
  | .negInf => true
  | .nan => false

/-- What surrounds one run of the wait loop: `elapsed j` is the value of
`time.Since(startTime).Seconds()` read after `j` sleeps, and `arrivals j` are the values that
other goroutines append to the queue during sleep number `j`. -/
structure Env where
  elapsed : Nat → ℚ
  arrivals : Nat → List String

/-- The steps of `handleBQPop` that concern the per-key mutex, in program order. -/
inductive Event where
  | lock (key : String)
  | sleep
  | unlock (key : String)
  deriving DecidableEq, Repr

/-- How the wait loop stands after the sleeps it was given: it took the `Timeout` return,
it left the loop with a non-empty queue, or it is still waiting. -/
inductive WaitEnd where
  | timedOut
  | ready (queue : List String)
  | waiting
  deriving DecidableEq

/-- The loop `for queue.Len() == 0` of `handleBQPop`, entered after `j` sleeps with the queue
holding `queue`; `fuel` is the number of further sleeps that are followed.  The result is
the number of sleeps done and how the loop stands then. -/
def waitLoop (env : Env) (timeout : Float64) : Nat → Nat → List String → Nat × WaitEnd
  | fuel, j, queue =>
    if queue.length = 0 then
      if reached (env.elapsed j) timeout then (j, WaitEnd.timedOut)
      else
        match fuel with
        | 0 => (j, WaitEnd.waiting)
        | fuel1 + 1 => waitLoop env timeout fuel1 (j + 1) (queue ++ env.arrivals j)
    else (j, WaitEnd.ready queue)

/-- One run of `handleBQPop`, followed for a bounded number of sleeps: the queue store
afterwards, the reply (`none` while the handler is still in its wait loop), and the mutex
and sleep steps taken so far. -/
structure BQPopRun where
  store : QueueStore
  reply : Option Reply
  trace : List Event

/-- `handleBQPop`, followed for at most `fuel` sleeps.  The argument `parsed` is the result
of `strconv.ParseFloat(req.Args[0], 64)`, `none` when it returns an error.  The deferred
`Unlock` runs at every return after the `Lock`. -/
def handleBQPop (env : Env) (fuel : Nat) (store : QueueStore) (req : Request)
    (parsed : Option Float64) : BQPopRun :=
  let key := req.Key
  match parsed with
  | none =>
    ⟨store, some ⟨400, ⟨false, "Invalid timeout value", "", ""⟩⟩, []⟩
  | some timeout =>
    match store key with
    | none =>
      ⟨store, some ⟨404, ⟨false, "Key not found", "", ""⟩⟩, []⟩
    | some queue =>
      if queue.length = 0 ∧ timeout.isZero = true then
        ⟨store, some ⟨404, ⟨false, "Queue is empty", "", ""⟩⟩,
          [Event.lock key, Event.unlock key]⟩
      else
        match waitLoop env timeout fuel 0 queue with
        | (sleeps, WaitEnd.timedOut) =>
          ⟨setQueue store key [], some ⟨408, ⟨false, "Timeout", "", ""⟩⟩,
            Event.lock key :: (List.replicate sleeps Event.sleep ++ [Event.unlock key])⟩
        | (sleeps, WaitEnd.ready waited) =>
          let val := waited.getD (waited.length - 1) ""
          ⟨setQueue store key (waited.take (waited.length - 1)),
            some ⟨200, ⟨true, "", "", val⟩⟩,
            Event.lock key :: (List.replicate sleeps Event.sleep ++ [Event.unlock key])⟩
        | (sleeps, WaitEnd.waiting) =>
          ⟨setQueue store key [], none,
            Event.lock key :: List.replicate sleeps Event.sleep⟩

/-- Whether the mutex of `key` is held after the event `e`, given whether it was before. -/
def heldAfter (key : String) (held : Bool) : Event → Bool
  | .lock k => if k = key then true else held
  | .unlock k => if k = key then false else held
  | .sleep => held

/-- For each sleep step of a trace, in order, whether the mutex of `key` is held during
it; `held` says whether it is held at the start of the trace. -/
def heldDuringSleeps (key : String) : Bool → List Event → List Bool
  | _, [] => []
  | held, .sleep :: rest => held :: heldDuringSleeps key held rest
  | held, e :: rest => heldDuringSleeps key (heldAfter key held e) rest

/-- A clock that shows `j / 10` seconds after `j` sleeps of 100 ms, with no other goroutine
touching the queue. -/
def quietEnv : Env := ⟨fun j => (j : ℚ) / 10, fun _ => []⟩

/-- An environment with the clock of `quietEnv` in which `x` is pushed during sleep 1. -/
def pushEnv (x : String) : Env :=
  ⟨fun j => (j : ℚ) / 10, fun j => if j = 1 then [x] else []⟩

/-- A `BQPOP` request on key `k`. -/
def bqpopRequest (k : String) : Request :=
  ⟨"BQPOP", k, "", fun _ => none⟩

/-! ## Lemmas on `Fields` and `Join` -/

theorem fieldsFrom_word (w : List Char) (hw : ∀ c ∈ w, isSpace c = false) :
    ∀ (cur rest : List Char), fieldsFrom cur (w ++ rest) = fieldsFrom (cur ++ w) rest := by
  induction w with
  | nil => intro cur rest; simp
  | cons c w ih =>
    intro cur rest
    have hc : isSpace c = false := hw c (List.mem_cons_self _ _)
    have hw2 : ∀ d ∈ w, isSpace d = false := fun d hd => hw d (List.mem_cons_of_mem _ hd)
    simp [fieldsFrom, hc, ih hw2 (cur ++ [c]) rest]

theorem fieldsFrom_split (s : Char) (hs : isSpace s = true) (rest : List Char) :
    ∀ (q cur : List Char),
      fieldsFrom cur (q ++ s :: rest) = fieldsFrom cur (q ++ [s]) ++ fieldsFrom [] rest := by
  intro q
  induction q with
  | nil =>
    intro cur
    by_cases hcur : cur = [] <;> simp [fieldsFrom, hs, hcur]
  | cons c q ih =>
    intro cur
    by_cases hc : isSpace c = true
    · by_cases hcur : cur = [] <;> simp [fieldsFrom, hc, hcur, ih []]
    · simp [fieldsFrom, hc, ih (cur ++ [c])]

theorem fieldsFrom_word_space (w : List Char) (hne : w ≠ [])
    (hw : ∀ c ∈ w, isSpace c = false) (s : Char) (hs : isSpace s = true) (rest : List Char) :
    fieldsFrom [] (w ++ s :: rest) = w :: fieldsFrom [] rest := by
  rw [fieldsFrom_word w hw [] (s :: rest)]
  simp [fieldsFrom, hs, hne]

theorem fieldsFrom_word_only (w : List Char) (hne : w ≠ [])
    (hw : ∀ c ∈ w, isSpace c = false) : fieldsFrom [] w = [w] := by
  have h := fieldsFrom_word w hw [] []
  simp only [List.append_nil, List.nil_append] at h
  rw [h]; simp [fieldsFrom, hne]

theorem fieldsFrom_good (l : List Char) :
    ∀ (cur : List Char), (∀ c ∈ cur, isSpace c = false) →
      ∀ f ∈ fieldsFrom cur l, f ≠ [] ∧ ∀ c ∈ f, isSpace c = false := by
  induction l with
  | nil =>
    intro cur hcur f hf
    by_cases h : cur = []
    · simp [fieldsFrom, h] at hf
    · simp [fieldsFrom, h] at hf
      subst hf; exact ⟨h, hcur⟩
  | cons c l ih =>
    intro cur hcur f hf
    by_cases hc : isSpace c = true
    · by_cases h : cur = []
      · simp [fieldsFrom, hc, h] at hf
        exact ih [] (by simp) f hf
      · simp [fieldsFrom, hc, h] at hf
        rcases hf with hf | hf
        · subst hf; exact ⟨h, hcur⟩
        · exact ih [] (by simp) f hf
    · simp [fieldsFrom, hc] at hf
      refine ih (cur ++ [c]) ?_ f hf
      intro d hd
      rcases List.mem_append.mp hd with hd | hd
      · exact hcur d hd
      · simp at hd; subst hd; simpa using hc

theorem fieldsFrom_eq_nil (l : List Char) :
    ∀ (cur : List Char), fieldsFrom cur l = [] ↔ cur = [] ∧ ∀ c ∈ l, isSpace c = true := by
  induction l with
  | nil => intro cur; by_cases h : cur = [] <;> simp [fieldsFrom, h]
  | cons c l ih =>
    intro cur
    by_cases hc : isSpace c = true
    · by_cases h : cur = [] <;> simp [fieldsFrom, hc, h, ih []]
    · simp [fieldsFrom, hc, ih (cur ++ [c])]

/-- A field: a non-empty string without white space. -/
theorem Fields_good (q : String) : ∀ f ∈ Fields q, f ≠ "" ∧ noSpace f := by
  intro f hf
  simp only [Fields, List.mem_map] at hf
  obtain ⟨w, hw, rfl⟩ := hf
  have h := fieldsFrom_good q.data [] (by simp) w hw
  refine ⟨?_, h.2⟩
  intro hcon
  exact h.1 (congrArg String.data hcon)

theorem Fields_eq_nil (q : String) : Fields q = [] ↔ allSpace q := by
  simp [Fields, fieldsFrom_eq_nil, allSpace]

theorem Fields_word (v : String) (hne : v ≠ "") (hv : noSpace v) : Fields v = [v] := by
  have h : v.data ≠ [] := fun hcon => hne (String.ext hcon)
  simp [Fields, fieldsFrom_word_only v.data h hv]

theorem Fields_Join (fs : List String) (h : ∀ f ∈ fs, f ≠ "" ∧ noSpace f) :
    Fields (Join fs " ") = fs := by
  induction fs with
  | nil => simp [Join, Fields, fieldsFrom]
  | cons a rest ih =>
    have ha := h a (List.mem_cons_self _ _)
    have hrest : ∀ f ∈ rest, f ≠ "" ∧ noSpace f := fun f hf => h f (List.mem_cons_of_mem _ hf)
    cases rest with
    | nil => simpa [Join] using Fields_word a ha.1 ha.2
    | cons b rest2 =>
      have hd : a.data ≠ [] := fun hcon => ha.1 (String.ext hcon)
      have ih2 := ih hrest
      simp only [Fields] at ih2
      have hsp : (" " : String).data = [' '] := rfl
      simp only [Join, Fields, String.data_append, hsp, List.append_assoc, List.singleton_append]
      rw [fieldsFrom_word_space a.data hd ha.2 ' ' (by decide), List.map_cons, ih2]

theorem closedQueue_append_value (q v : String) : closedQueue (q ++ (v ++ " ")) = true := by
  have hsp : (" " : String).data = [' '] := rfl
  have h : (q ++ (v ++ " ")).data = (q.data ++ v.data) ++ [' '] := by
    simp [String.data_append, hsp]
  simp [closedQueue, h, List.getLast?_append]
  decide

theorem Fields_append_value (q v : String) (hq : closedQueue q = true)
    (hne : v ≠ "") (hv : noSpace v) : Fields (q ++ (v ++ " ")) = Fields q ++ [v] := by
  have hsp : (" " : String).data = [' '] := rfl
  have hd : v.data ≠ [] := fun hcon => hne (String.ext hcon)
  have hword : fieldsFrom [] (v.data ++ [' ']) = [v.data] := by
    rw [fieldsFrom_word_space v.data hd hv ' ' (by decide) []]; simp [fieldsFrom]
  rcases List.eq_nil_or_concat q.data with hnil | ⟨q1, s, hcat⟩
  · simp [Fields, String.data_append, hsp, hnil, hword, fieldsFrom]
  · rw [List.concat_eq_append] at hcat
    have hs : isSpace s = true := by
      simpa [closedQueue, hcat] using hq
    simp only [Fields, String.data_append, hsp, hcat, List.append_assoc, List.singleton_append]
    rw [fieldsFrom_split s hs (v.data ++ [' ']) q1 [], hword]
    simp

theorem Fields_appendValues (vs : List String) :
    ∀ (q : String), closedQueue q = true → (∀ v ∈ vs, v ≠ "" ∧ noSpace v) →
      Fields (appendValues q vs) = Fields q ++ vs := by
  induction vs with
  | nil => intro q _ _; simp [appendValues]
  | cons v rest ih =>
    intro q hq h
    have hv := h v (List.mem_cons_self _ _)
    rw [appendValues, ih (q ++ (v ++ " ")) (closedQueue_append_value q v)
      (fun f hf => h f (List.mem_cons_of_mem _ hf)), Fields_append_value q v hq hv.1 hv.2]
    simp

theorem appendValues_eq (vs : List String) :
    ∀ (q : String), appendValues q vs = q ++ encode vs := by
  induction vs with
  | nil => intro q; apply String.ext; simp [appendValues, encode]
  | cons v rest ih =>
    intro q
    rw [appendValues, ih]
    apply String.ext; simp [encode, String.data_append]

theorem assign_same (ds : Store) (key value : String) : assign ds key value key = some value := by
  simp [assign]

theorem assign_other (ds : Store) (key value k : String) (h : k ≠ key) :
    assign ds key value k = ds k := by
  simp [assign, h]

theorem QPop_snoc (ds : Store) (key queue : String) (xs : List String) (x : String)
    (hq : ds key = some queue) (hf : Fields queue = xs ++ [x]) :
    QPop ds key = (assign ds key (Join xs " "), (x, true)) := by
  simp [QPop, hq, hf, List.getD_eq_getElem?_getD]

theorem QPop_none (ds : Store) (key : String) (hq : ds key = none) :
    QPop ds key = (ds, ("", false)) := by
  simp [QPop, hq]

theorem QPop_nil (ds : Store) (key queue : String)
    (hq : ds key = some queue) (hf : Fields queue = []) :
    QPop ds key = (ds, ("", false)) := by
  simp [QPop, hq, hf]

theorem QPush_same (ds : Store) (key : String) (values : List String) :
    QPush ds key values key = some (appendValues ((ds key).getD "") values) := by
  cases h : ds key <;> simp [QPush, assign, h]

/-! ## Set and Get -/

/-- C1: for every store, every key `k` and every string `v`, `Set(k, v)` followed by `Get(k)`
returns `v` together with the found flag true. -/
theorem C1_set_then_get (ds : Store) (k v : String) : Get (Set ds k v) k = (v, true) := by
  simp [Get, Set, assign]

/-! ## Push then pop -/

/-- C2, as stated, fails: with an empty first value the third pop fails; with a first value
holding a space the third pop returns only its last word; on a key that holds the string
`s` the third pop returns `sa`. -/
theorem C2_counterexample :
    popThrice (QPush NewDataStore "k" ["", "b", "c"]) "k"
      = (("c", true), ("b", true), ("", false)) ∧
    popThrice (QPush NewDataStore "k" ["x y", "b", "c"]) "k"
      = (("c", true), ("b", true), ("y", true)) ∧
    popThrice (QPush (Set NewDataStore "k" "s") "k" ["a", "b", "c"]) "k"
      = (("c", true), ("b", true), ("sa", true)) := by
  decide

/-- C2, amended: when the string `QPush` starts from (the one stored under `k`, or the empty
string when `k` is absent) is empty or ends in white space, and `a`, `b`, `c` are non-empty
and free of white space, `QPush(k, [a, b, c])` followed by three `QPop(k)` returns `c`, then
`b`, then `a`, each with the success flag true. -/
theorem C2_push_then_pop_thrice (ds : Store) (k a b c : String)
    (hq : closedQueue ((ds k).getD "") = true)
    (ha : a ≠ "" ∧ noSpace a) (hb : b ≠ "" ∧ noSpace b) (hc : c ≠ "" ∧ noSpace c) :
    popThrice (QPush ds k [a, b, c]) k = ((c, true), (b, true), (a, true)) := by
  have hgood : ∀ f ∈ Fields ((ds k).getD "") ++ [a, b], f ≠ "" ∧ noSpace f := by
    intro f hf
    rcases List.mem_append.mp hf with hf | hf
    · exact Fields_good _ f hf
    · simp at hf
      rcases hf with rfl | rfl
      · exact ha
      · exact hb
  have hgood1 : ∀ f ∈ Fields ((ds k).getD "") ++ [a], f ≠ "" ∧ noSpace f :=
    fun f hf => hgood f (by
      rcases List.mem_append.mp hf with hf | hf
      · exact List.mem_append_left _ hf
      · simp at hf; subst hf; simp)
  have h0 : Fields (appendValues ((ds k).getD "") [a, b, c])
      = (Fields ((ds k).getD "") ++ [a, b]) ++ [c] := by
    rw [Fields_appendValues [a, b, c] _ hq]
    · simp
    · intro v hv
      simp at hv
      rcases hv with rfl | rfl | rfl
      · exact ha
      · exact hb
      · exact hc
  have h1 : Fields (Join (Fields ((ds k).getD "") ++ [a, b]) " ")
      = (Fields ((ds k).getD "") ++ [a]) ++ [b] := by
    rw [Fields_Join _ hgood]; simp
  have h2 : Fields (Join (Fields ((ds k).getD "") ++ [a]) " ")
      = Fields ((ds k).getD "") ++ [a] := Fields_Join _ hgood1
  have e1 := QPop_snoc (QPush ds k [a, b, c]) k _ _ c (QPush_same ds k [a, b, c]) h0
  have e2 := QPop_snoc (assign (QPush ds k [a, b, c]) k
    (Join (Fields ((ds k).getD "") ++ [a, b]) " ")) k _ _ b (assign_same _ _ _) h1
  have e3 := QPop_snoc (assign (assign (QPush ds k [a, b, c]) k
    (Join (Fields ((ds k).getD "") ++ [a, b]) " ")) k
    (Join (Fields ((ds k).getD "") ++ [a]) " ")) k _ _ a (assign_same _ _ _) h2
  simp only [popThrice, e1, e2, e3]

/-- C2, amended, at a key that already holds the queue `z `. -/
theorem C2_push_then_pop_thrice_witness :
    closedQueue (((QPush NewDataStore "k" ["z"]) "k").getD "") = true ∧
    popThrice (QPush (QPush NewDataStore "k" ["z"]) "k" ["a", "b", "c"]) "k"
      = (("c", true), ("b", true), ("a", true)) :=
  ⟨by decide,
   C2_push_then_pop_thrice (QPush NewDataStore "k" ["z"]) "k" "a" "b" "c"
     (by decide) (by decide) (by decide) (by decide)⟩

/-! ## Pop on an absent key and on an empty queue -/

/-- C3, as stated, fails: `QPop` on an absent key and `QPop` on a key whose queue was emptied
by a pop return the same pair, and `handleQPop` writes the same reply in both cases. -/
theorem C3_counterexample :
    NewDataStore "k" = none ∧
    (QPop (QPush NewDataStore "k" ["a"]) "k").1 "k" = some "" ∧
    (QPop NewDataStore "k").2 = ("", false) ∧
    (QPop (QPop (QPush NewDataStore "k" ["a"]) "k").1 "k").2 = ("", false) ∧
    (handleQPop NewDataStore (keyRequest "QPOP" "k")).2
      = (handleQPop (QPop (QPush NewDataStore "k" ["a"]) "k").1 (keyRequest "QPOP" "k")).2 := by
  decide

/-- C3, amended: when `k` is absent, and equally when `k` holds a string with zero items,
`QPop(k)` returns the empty string with the flag false and leaves the store as it is, and
`handleQPop` answers status 404 with the one message `Queue is empty or does not exist`;
the two outcomes are the same. -/
theorem C3_qpop_absent_or_empty (ds : Store) (req : Request)
    (h : ds req.Key = none ∨ ∃ q, ds req.Key = some q ∧ Fields q = []) :
    QPop ds req.Key = (ds, ("", false)) ∧
    handleQPop ds req
      = (ds, ⟨404, ⟨false, "Queue is empty or does not exist", "", ""⟩⟩) := by
  have hpop : QPop ds req.Key = (ds, ("", false)) := by
    rcases h with h | ⟨q, hq, hf⟩
    · exact QPop_none ds req.Key h
    · exact QPop_nil ds req.Key q hq hf
  refine ⟨hpop, ?_⟩
  simp [handleQPop, hpop]

/-- C3, amended, at a key that holds the empty string. -/
theorem C3_qpop_absent_or_empty_witness :
    (∃ q, Set NewDataStore "k" "" "k" = some q ∧ Fields q = []) ∧
    (QPop (Set NewDataStore "k" "") "k").2 = ("", false) ∧
    (handleQPop (Set NewDataStore "k" "") (keyRequest "QPOP" "k")).2
      = ⟨404, ⟨false, "Queue is empty or does not exist", "", ""⟩⟩ :=
  have h := C3_qpop_absent_or_empty (Set NewDataStore "k" "") (keyRequest "QPOP" "k")
    (Or.inr ⟨"", by decide, by decide⟩)
  ⟨⟨"", by decide, by decide⟩, congrArg Prod.snd h.1, congrArg Prod.snd h.2⟩

/-! ## One string per key: scalars and queues share the slot -/

/-- C4, as stated, fails: on a key holding the queue `a `, `Set(k, "x")` followed by
`QPop(k)` returns `x` with the success flag true. -/
theorem C4_counterexample :
    (QPop (Set (QPush NewDataStore "k" ["a"]) "k" "x") "k").2 = ("x", true) := by
  decide

/-- C4, amended: for every store, key `k` and string `v`, `Set(k, v)` followed by `QPop(k)`
fails exactly when `v` holds only white space; when `v` is non-empty and free of white space
the pop succeeds and returns `v`. -/
theorem C4_set_then_qpop (ds : Store) (k v : String) :
    ((QPop (Set ds k v) k).2.2 = false ↔ allSpace v) ∧
    (v ≠ "" → noSpace v → (QPop (Set ds k v) k).2 = (v, true)) := by
  constructor
  · rw [← Fields_eq_nil]
    cases hf : Fields v <;> simp [QPop, Set, assign, hf]
  · intro hne hv
    have h := QPop_snoc (Set ds k v) k v [] v (assign_same ds k v)
      (by simpa using Fields_word v hne hv)
    rw [h]

/-- C4, amended, at `v = "x"` and at `v = " "`. -/
theorem C4_set_then_qpop_witness :
    (QPop (Set NewDataStore "k" "x") "k").2 = ("x", true) ∧
    (QPop (Set NewDataStore "k" " ") "k").2.2 = false :=
  ⟨(C4_set_then_qpop NewDataStore "k" "x").2 (by decide) (by decide),
   (C4_set_then_qpop NewDataStore "k" " ").1.mpr (by decide)⟩

/-- C5, as stated, fails: `QPush(k, ["a"])` on a key holding the scalar `v` changes it, and
the following `Get(k)` returns `va `. -/
theorem C5_counterexample :
    Get (QPush (Set NewDataStore "k" "v") "k" ["a"]) "k" = ("va ", true) ∧
    Get (QPush (Set NewDataStore "k" "v") "k" ["a"]) "k" ≠ ("v", true) := by
  decide

/-- C5, amended: on a key `k` holding the scalar `v`, `QPush(k, vs)` appends each value
followed by one space to `v`, so the following `Get(k)` returns `v` followed by that text,
found flag true; the returned string is `v` exactly when `vs` is empty. -/
theorem C5_qpush_on_scalar (ds : Store) (k v : String) (vs : List String) :
    Get (QPush (Set ds k v) k vs) k = (v ++ encode vs, true) ∧
    ((Get (QPush (Set ds k v) k vs) k).1 = v ↔ vs = []) := by
  have hget : Get (QPush (Set ds k v) k vs) k = (v ++ encode vs, true) := by
    simp [Get, QPush_same, Set, assign_same, appendValues_eq]
  refine ⟨hget, ?_⟩
  rw [hget]
  constructor
  · intro h
    have hd := congrArg String.data h
    cases vs with
    | nil => rfl
    | cons x rest => simp [encode, String.data_append] at hd
  · rintro rfl
    apply String.ext; simp [encode]

/-- C6, as stated, fails: after `QPush(k, ["a"])` on an absent key, `Get(k)` returns `a `
with the found flag true and `handleGet` answers success with that value. -/
theorem C6_counterexample :
    NewDataStore "k" = none ∧
    Get (QPush NewDataStore "k" ["a"]) "k" = ("a ", true) ∧
    (handleGet (QPush NewDataStore "k" ["a"]) (keyRequest "GET" "k")).2
      = ⟨200, ⟨true, "", "k", "a "⟩⟩ := by
  decide

/-- C6, amended: for every key `k` absent from the store and every list `vs`, after
`QPush(k, vs)` the call `Get(k)` returns the queue text (each value followed by one space)
with the found flag true, and `handleGet` answers status 200, success, with that text as
the value. -/
theorem C6_get_on_queue (ds : Store) (req : Request) (vs : List String)
    (h : ds req.Key = none) :
    Get (QPush ds req.Key vs) req.Key = (encode vs, true) ∧
    handleGet (QPush ds req.Key vs) req
      = (QPush ds req.Key vs, ⟨200, ⟨true, "", req.Key, encode vs⟩⟩) := by
  have he : ("" : String) ++ encode vs = encode vs := by apply String.ext; simp
  have hget : Get (QPush ds req.Key vs) req.Key = (encode vs, true) := by
    simp [Get, QPush_same, h, appendValues_eq, he]
  refine ⟨hget, ?_⟩
  simp [handleGet, hget]

/-- C6, amended, at the empty store and `vs = ["a", "b"]`. -/
theorem C6_get_on_queue_witness :
    NewDataStore "k" = none ∧
    Get (QPush NewDataStore "k" ["a", "b"]) "k" = ("a b ", true) ∧
    (handleGet (QPush NewDataStore "k" ["a", "b"]) (keyRequest "GET" "k")).2
      = ⟨200, ⟨true, "", "k", "a b "⟩⟩ :=
  have h := C6_get_on_queue NewDataStore (keyRequest "GET" "k") ["a", "b"] (by decide)
  ⟨by decide, h.1, congrArg Prod.snd h.2⟩

/-! ## Delete -/

/-- C7: for every store and key `k`, `Delete(k)` returns true exactly when `k` was present
before the call; after the call `k` is absent: the map has no entry for `k`, `Get(k)` returns
found = false, and a second `Delete(k)` returns false. -/
theorem C7_delete (ds : Store) (k : String) :
    ((Delete ds k).2 = true ↔ ds k ≠ none) ∧
    (Delete ds k).1 k = none ∧
    Get (Delete ds k).1 k = ("", false) ∧
    (Delete (Delete ds k).1 k).2 = false := by
  cases h : ds k <;> simp [Delete, Get, remove, h]

/-! ## Popping the last item -/

/-- C8: when `QPop(k)` removes the last remaining item `x` of a queue, the key stays in the
map (holding the empty string), so `Delete(k)` returns true, and a further `QPop(k)` returns
the empty result and changes nothing. -/
theorem C8_pop_last_keeps_key (ds : Store) (k q x : String)
    (hq : ds k = some q) (hf : Fields q = [x]) :
    (QPop ds k).2 = (x, true) ∧
    (QPop ds k).1 k = some "" ∧
    (Delete (QPop ds k).1 k).2 = true ∧
    QPop (QPop ds k).1 k = ((QPop ds k).1, ("", false)) := by
  have h := QPop_snoc ds k q [] x hq (by simpa using hf)
  have hJ : Join [] " " = "" := rfl
  rw [h, hJ]
  refine ⟨rfl, assign_same _ _ _, ?_, ?_⟩
  · simp [Delete, assign_same]
  · exact QPop_nil _ k "" (assign_same _ _ _) (by decide)

/-- C8 at the queue left by `QPush(k, ["a"])` on the empty store. -/
theorem C8_pop_last_keeps_key_witness :
    QPush NewDataStore "k" ["a"] "k" = some "a " ∧ Fields "a " = ["a"] ∧
    (QPop (QPush NewDataStore "k" ["a"]) "k").2 = ("a", true) ∧
    (QPop (QPush NewDataStore "k" ["a"]) "k").1 "k" = some "" ∧
    (Delete (QPop (QPush NewDataStore "k" ["a"]) "k").1 "k").2 = true ∧
    (QPop (QPop (QPush NewDataStore "k" ["a"]) "k").1 "k").2 = ("", false) :=
  have h := C8_pop_last_keeps_key (QPush NewDataStore "k" ["a"]) "k" "a " "a"
    (by decide) (by decide)
  ⟨by decide, by decide, h.1, h.2.1, h.2.2.1, congrArg Prod.snd h.2.2.2⟩

/-! ## Handlers -/

/-- C9 fails on the code: a `QPUSH` whose `values` option is the empty string, or only white
space, is answered with status 200 and `Values added to queue`, and on an absent key it
creates the key with the empty string.  Only a missing `values` option is refused. -/
theorem C9_empty_values_accepted :
    NewDataStore "k" = none ∧
    (handleQPush NewDataStore (qpushRequest "k" "")).2
      = ⟨200, ⟨true, "Values added to queue", "k", ""⟩⟩ ∧
    (handleQPush NewDataStore (qpushRequest "k" "")).1 "k" = some "" ∧
    (handleQPush NewDataStore (qpushRequest "k" " \t")).2
      = ⟨200, ⟨true, "Values added to queue", "k", ""⟩⟩ ∧
    (handleQPush NewDataStore (qpushRequest "k" " \t")).1 "k" = some "" ∧
    (handleQPush NewDataStore (keyRequest "QPUSH" "k")).2
      = ⟨400, ⟨false, "Values not provided", "", ""⟩⟩ ∧
    (handleQPush NewDataStore (keyRequest "QPUSH" "k")).1 "k" = none := by
  decide

/-- C10: for every `SET` request with an empty key or an empty value, `handleSet` answers
with a failure response (status 400) and leaves the store unchanged; for every `SET` request
with a non-empty key and a non-empty value it answers success and the store afterwards maps
the key to the value. -/
theorem C10_handleSet (ds : Store) (req : Request) :
    (req.Key = "" ∨ req.Value = "" →
      (handleSet ds req).2.body.Success = false ∧ (handleSet ds req).2.status = 400 ∧
      (handleSet ds req).1 = ds) ∧
    (req.Key ≠ "" ∧ req.Value ≠ "" →
      (handleSet ds req).2 = ⟨200, ⟨true, "", req.Key, req.Value⟩⟩ ∧
      (handleSet ds req).1 req.Key = some req.Value) := by
  constructor
  · intro h
    by_cases hk : req.Key = ""
    · simp [handleSet, hk]
    · rcases h with h | h
      · exact absurd h hk
      · simp [handleSet, hk, h]
  · rintro ⟨hk, hv⟩
    simp [handleSet, hk, hv, Set, assign_same]

/-- C10 at a request with an empty value, one with an empty key and a well-formed one. -/
theorem C10_handleSet_witness :
    ((handleSet (Set NewDataStore "a" "1") (setRequest "k" "")).2.body.Success = false ∧
      (handleSet (Set NewDataStore "a" "1") (setRequest "k" "")).2.status = 400 ∧
      (handleSet (Set NewDataStore "a" "1") (setRequest "k" "")).1 = Set NewDataStore "a" "1") ∧
    ((handleSet (Set NewDataStore "a" "1") (setRequest "" "v")).2.body.Success = false ∧
      (handleSet (Set NewDataStore "a" "1") (setRequest "" "v")).2.status = 400 ∧
      (handleSet (Set NewDataStore "a" "1") (setRequest "" "v")).1 = Set NewDataStore "a" "1") ∧
    ((handleSet (Set NewDataStore "a" "1") (setRequest "k" "v")).2
        = ⟨200, ⟨true, "", "k", "v"⟩⟩ ∧
      (handleSet (Set NewDataStore "a" "1") (setRequest "k" "v")).1 "k" = some "v") :=
  ⟨(C10_handleSet (Set NewDataStore "a" "1") (setRequest "k" "")).1 (Or.inr rfl),
   (C10_handleSet (Set NewDataStore "a" "1") (setRequest "" "v")).1 (Or.inl rfl),
   (C10_handleSet (Set NewDataStore "a" "1") (setRequest "k" "v")).2 ⟨by decide, by decide⟩⟩

/-! ## Lemmas on the blocking pop -/

theorem waitLoop_ready (env : Env) (t : Float64) (fuel j : Nat) (queue : List String)
    (h : queue ≠ []) : waitLoop env t fuel j queue = (j, WaitEnd.ready queue) := by
  unfold waitLoop
  simp [h]

theorem waitLoop_reached (env : Env) (t : Float64) (fuel j : Nat)
    (h : reached (env.elapsed j) t = true) :
    waitLoop env t fuel j [] = (j, WaitEnd.timedOut) := by
  unfold waitLoop
  simp [h]

theorem reached_of_isNegative (e : ℚ) (t : Float64) (ht : t.isNegative = true) (he : 0 ≤ e) :
    reached e t = true := by
  cases t with
  | finite q =>
    simp only [Float64.isNegative, decide_eq_true_eq] at ht
    simp only [reached, decide_eq_true_eq]
    exact le_trans (le_of_lt ht) he
  | posInf => simp [Float64.isNegative] at ht
  | negInf => rfl
  | nan => simp [Float64.isNegative] at ht

theorem isZero_of_isNegative (t : Float64) (ht : t.isNegative = true) : t.isZero = false := by
  cases t with
  | finite q =>
    simp only [Float64.isNegative, decide_eq_true_eq] at ht
    simp only [Float64.isZero, decide_eq_false_iff_not]
    exact ne_of_lt ht
  | posInf => rfl
  | negInf => rfl
  | nan => rfl

theorem heldDuringSleeps_replicate (key : String) (held : Bool) (rest : List Event) :
    ∀ (n : Nat), heldDuringSleeps key held (List.replicate n Event.sleep ++ rest)
      = List.replicate n held ++ heldDuringSleeps key held rest := by
  intro n
  induction n with
  | zero => simp
  | succ n ih => simp [List.replicate_succ, heldDuringSleeps, ih]

theorem heldDuringSleeps_sleeps (key : String) (held : Bool) (n : Nat) :
    heldDuringSleeps key held (List.replicate n Event.sleep) = List.replicate n held := by
  have h := heldDuringSleeps_replicate key held [] n
  simpa [heldDuringSleeps] using h

theorem setQueue_same (store : QueueStore) (key : String) (queue : List String) :
    setQueue store key queue key = some queue := by
  simp [setQueue]

/-! ## Lemmas on repeated pops and on other keys -/

theorem popMany_reverse (k : String) (rs : List String) :
    ∀ (ds : Store) (q : String), ds k = some q → Fields q = rs.reverse →
      (∀ f ∈ rs, f ≠ "" ∧ noSpace f) →
      (popMany ds k rs.length).2 = rs.map (fun v => (v, true)) ∧
      ∃ q1, (popMany ds k rs.length).1 k = some q1 ∧ Fields q1 = [] := by
  induction rs with
  | nil =>
    intro ds q hq hf _
    exact ⟨rfl, q, hq, by simpa using hf⟩
  | cons x rs ih =>
    intro ds q hq hf hgood
    have hpop := QPop_snoc ds k q rs.reverse x hq (by simpa using hf)
    have hrs : ∀ f ∈ rs.reverse, f ≠ "" ∧ noSpace f :=
      fun f hfm => hgood f (List.mem_cons_of_mem _ (List.mem_reverse.mp hfm))
    have ih1 := ih (assign ds k (Join rs.reverse " ")) (Join rs.reverse " ")
      (assign_same _ _ _) (Fields_Join _ hrs)
      (fun f hfm => hgood f (List.mem_cons_of_mem _ hfm))
    simp only [List.length_cons, popMany, hpop, List.map_cons]
    exact ⟨by rw [ih1.1], ih1.2⟩

theorem QPop_other (ds : Store) (k k1 : String) (h : k1 ≠ k) : (QPop ds k).1 k1 = ds k1 := by
  unfold QPop
  cases hq : ds k with
  | none => rfl
  | some q =>
    by_cases hl : (Fields q).length = 0
    · simp [hl]
    · simp [hl, assign, h]

/-! ## Blocking pop: the timeout argument -/

/-- C11, as stated, fails: with the timeout `-1` the handler answers `Timeout` on an empty
queue and returns the tail item of a non-empty queue; neither reply is
`Invalid timeout value`. -/
theorem C11_counterexample :
    Float64.isNegative (Float64.finite (-1)) = true ∧
    (handleBQPop quietEnv 0 (setQueue NewQueueStore "k" []) (bqpopRequest "k")
        (some (Float64.finite (-1)))).reply
      = some ⟨408, ⟨false, "Timeout", "", ""⟩⟩ ∧
    (handleBQPop quietEnv 0 (setQueue NewQueueStore "k" ["a"]) (bqpopRequest "k")
        (some (Float64.finite (-1)))).reply
      = some ⟨200, ⟨true, "", "", "a"⟩⟩ := by
  refine ⟨by simp [Float64.isNegative], ?_, ?_⟩
  · simp [handleBQPop, waitLoop, reached, quietEnv, setQueue, bqpopRequest, Float64.isZero]
  · simp [handleBQPop, waitLoop, setQueue, bqpopRequest]

/-- C11, amended: for every `BQPOP` request whose timeout parses as a negative number (the
clock reading being non-negative), `handleBQPop` returns without sleeping and its reply is
never `Invalid timeout value` nor `Queue is empty`: it is `Key not found` when the key is
absent, `Timeout` when the queue is empty, and the tail item, removed from the queue, when
the queue is non-empty. -/
theorem C11_negative_timeout (env : Env) (fuel : Nat) (store : QueueStore) (req : Request)
    (t : Float64) (hneg : t.isNegative = true) (hclock : 0 ≤ env.elapsed 0) :
    (handleBQPop env fuel store req (some t)).reply
      ≠ some ⟨400, ⟨false, "Invalid timeout value", "", ""⟩⟩ ∧
    (handleBQPop env fuel store req (some t)).reply
      ≠ some ⟨404, ⟨false, "Queue is empty", "", ""⟩⟩ ∧
    (handleBQPop env fuel store req (some t)).trace.count Event.sleep = 0 ∧
    (store req.Key = none →
      (handleBQPop env fuel store req (some t)).reply
        = some ⟨404, ⟨false, "Key not found", "", ""⟩⟩) ∧
    (store req.Key = some [] →
      (handleBQPop env fuel store req (some t)).reply
        = some ⟨408, ⟨false, "Timeout", "", ""⟩⟩) ∧
    (∀ q x, store req.Key = some (q ++ [x]) →
      (handleBQPop env fuel store req (some t)).reply = some ⟨200, ⟨true, "", "", x⟩⟩ ∧
      (handleBQPop env fuel store req (some t)).store req.Key = some q) := by
  have hz := isZero_of_isNegative t hneg
  have hr := reached_of_isNegative (env.elapsed 0) t hneg hclock
  cases hs : store req.Key with
  | none => simp [handleBQPop, hs]
  | some queue =>
    rcases List.eq_nil_or_concat queue with rfl | ⟨q, x, hq⟩
    · simp [handleBQPop, hs, hz, waitLoop_reached env t fuel 0 hr]
    · rw [List.concat_eq_append] at hq
      subst hq
      have hne : q ++ [x] ≠ [] := by simp
      simp only [handleBQPop, hs, hz, waitLoop_ready env t fuel 0 (q ++ [x]) hne]
      simp only [List.getD_eq_getElem?_getD, setQueue_same]
      refine ⟨by simp, by simp, by simp [List.count_cons], by simp, by simp, ?_⟩
      intro q1 x1 h
      have hinj := List.append_inj_left' (Option.some.inj h) rfl
      have hinj2 := List.append_inj_right' (Option.some.inj h) rfl
      subst hinj
      cases hinj2
      simp [setQueue_same]

/-- C11, amended, at the timeout `-1` on the queue `a, b`. -/
theorem C11_negative_timeout_witness :
    Float64.isNegative (Float64.finite (-1)) = true ∧ 0 ≤ quietEnv.elapsed 0 ∧
    (handleBQPop quietEnv 0 (setQueue NewQueueStore "k" ["a", "b"]) (bqpopRequest "k")
        (some (Float64.finite (-1)))).reply
      = some ⟨200, ⟨true, "", "", "b"⟩⟩ ∧
    (handleBQPop quietEnv 0 (setQueue NewQueueStore "k" ["a", "b"]) (bqpopRequest "k")
        (some (Float64.finite (-1)))).store "k" = some ["a"] :=
  have hneg : Float64.isNegative (Float64.finite (-1)) = true := by simp [Float64.isNegative]
  have hclock : 0 ≤ quietEnv.elapsed 0 := by simp [quietEnv]
  ⟨hneg, hclock,
   (C11_negative_timeout quietEnv 0 (setQueue NewQueueStore "k" ["a", "b"]) (bqpopRequest "k")
      (Float64.finite (-1)) hneg hclock).2.2.2.2.2 ["a"] "b" (by simp [setQueue, bqpopRequest])⟩

/-- C12: for every key that exists and holds an empty queue, `handleBQPop` with timeout 0
answers status 404 `Queue is empty`, takes no sleep step (it locks and unlocks the mutex of
the key and nothing else), and leaves the queue store as it was. -/
theorem C12_zero_timeout_on_empty (env : Env) (fuel : Nat) (store : QueueStore)
    (req : Request) (h : store req.Key = some []) :
    (handleBQPop env fuel store req (some (Float64.finite 0))).reply
      = some ⟨404, ⟨false, "Queue is empty", "", ""⟩⟩ ∧
    (handleBQPop env fuel store req (some (Float64.finite 0))).trace
      = [Event.lock req.Key, Event.unlock req.Key] ∧
    (handleBQPop env fuel store req (some (Float64.finite 0))).trace.count Event.sleep = 0 ∧
    (handleBQPop env fuel store req (some (Float64.finite 0))).store = store := by
  simp [handleBQPop, h, Float64.isZero]

/-- C12 at a store whose key `k` holds the empty queue. -/
theorem C12_zero_timeout_on_empty_witness :
    setQueue NewQueueStore "k" [] (bqpopRequest "k").Key = some [] ∧
    (handleBQPop quietEnv 5 (setQueue NewQueueStore "k" []) (bqpopRequest "k")
        (some (Float64.finite 0))).reply
      = some ⟨404, ⟨false, "Queue is empty", "", ""⟩⟩ ∧
    (handleBQPop quietEnv 5 (setQueue NewQueueStore "k" []) (bqpopRequest "k")
        (some (Float64.finite 0))).trace.count Event.sleep = 0 :=
  have h : setQueue NewQueueStore "k" [] (bqpopRequest "k").Key = some [] := by
    simp [setQueue, bqpopRequest]
  have hrun := C12_zero_timeout_on_empty quietEnv 5 (setQueue NewQueueStore "k" [])
    (bqpopRequest "k") h
  ⟨h, hrun.1, hrun.2.2.1⟩

/-! ## Blocking pop: the mutex during the wait -/

/-- C13, as stated, fails: waiting on an empty queue with timeout 0.25 s, the handler sleeps
three times and the mutex of the key is held during each of the three sleeps. -/
theorem C13_counterexample :
    (handleBQPop quietEnv 10 (setQueue NewQueueStore "k" []) (bqpopRequest "k")
        (some (Float64.finite (1 / 4)))).trace
      = [Event.lock "k", Event.sleep, Event.sleep, Event.sleep, Event.unlock "k"] ∧
    heldDuringSleeps "k" false
      (handleBQPop quietEnv 10 (setQueue NewQueueStore "k" []) (bqpopRequest "k")
        (some (Float64.finite (1 / 4)))).trace
      = [true, true, true] := by
  constructor <;>
  norm_num [handleBQPop, waitLoop, reached, quietEnv, setQueue, bqpopRequest, Float64.isZero,
    List.replicate, heldDuringSleeps, heldAfter]

/-- C13, amended: a `BQPOP` call holds the mutex of its key during every sleep step of its
wait loop: in every run, however long it is followed, each sleep step finds the mutex taken
by that call still held. -/
theorem C13_mutex_held_during_sleeps (env : Env) (fuel : Nat) (store : QueueStore)
    (req : Request) (parsed : Option Float64) :
    heldDuringSleeps req.Key false (handleBQPop env fuel store req parsed).trace
      = List.replicate ((handleBQPop env fuel store req parsed).trace.count Event.sleep)
          true := by
  cases parsed with
  | none => simp [handleBQPop, heldDuringSleeps]
  | some t =>
    cases hs : store req.Key with
    | none => simp [handleBQPop, hs, heldDuringSleeps]
    | some queue =>
      by_cases hz : queue.length = 0 ∧ t.isZero = true
      · simp [handleBQPop, hs, hz, heldDuringSleeps, heldAfter]
      · have hz1 : ¬(queue = [] ∧ t.isZero = true) := by simpa using hz
        rcases hw : waitLoop env t fuel 0 queue with ⟨sleeps, e⟩
        cases e <;>
        simp [handleBQPop, hs, hz1, hw, heldDuringSleeps, heldAfter,
          heldDuringSleeps_replicate, heldDuringSleeps_sleeps, List.count_cons,
          List.count_append,
          List.count_replicate]

/-! ## The queue as one delimited string -/

/-- C14 fails on the code: after `QPush(k, ["a", "b"])` and a `QPop(k)` that returns `b`, the
stored string is `a` without a closing space, so `QPush(k, ["c"])` makes it `ac `: the next
`QPop(k)` returns `ac` and the one after it fails. -/
theorem C14_push_after_pop_fuses :
    NewDataStore "k" = none ∧
    (QPop (QPush NewDataStore "k" ["a", "b"]) "k").2 = ("b", true) ∧
    (QPop (QPush NewDataStore "k" ["a", "b"]) "k").1 "k" = some "a" ∧
    QPush (QPop (QPush NewDataStore "k" ["a", "b"]) "k").1 "k" ["c"] "k" = some "ac " ∧
    (popMany (QPush (QPop (QPush NewDataStore "k" ["a", "b"]) "k").1 "k" ["c"]) "k" 2).2
      = [("ac", true), ("", false)] := by
  decide

/-- C15: for some string `v` containing a space and some key `k` absent from the store,
`QPush(k, [v])` followed by `QPop(k)` returns a value different from `v`. -/
theorem C15_delimiter_corrupts :
    ∃ (v k : String) (ds : Store), ' ' ∈ v.data ∧ ds k = none ∧
      (QPop (QPush ds k [v]) k).2 = ("y", true) ∧ (QPop (QPush ds k [v]) k).2.1 ≠ v :=
  ⟨"x y", "k", NewDataStore, by decide, rfl, by decide, by decide⟩

/-- C16: for every key `k` absent from the store and every list `vs` of non-empty strings
without white space, after one `QPush(k, vs)` the next `length(vs)` calls of `QPop(k)` all
succeed and return the elements of `vs` in reverse order, and the call after those returns
the empty result with the success flag false. -/
theorem C16_push_then_pop_all (ds : Store) (k : String) (vs : List String)
    (habsent : ds k = none) (hgood : ∀ v ∈ vs, v ≠ "" ∧ noSpace v) :
    (popMany (QPush ds k vs) k vs.length).2 = vs.reverse.map (fun v => (v, true)) ∧
    (QPop (popMany (QPush ds k vs) k vs.length).1 k).2 = ("", false) := by
  have hq : QPush ds k vs k = some (appendValues "" vs) := by
    simp [QPush_same, habsent]
  have hf : Fields (appendValues "" vs) = vs.reverse.reverse := by
    rw [Fields_appendValues vs "" (by decide) hgood, List.reverse_reverse]
    simp [show Fields "" = [] by decide]
  have h := popMany_reverse k vs.reverse (QPush ds k vs) _ hq hf
    (fun f hfm => hgood f (List.mem_reverse.mp hfm))
  rw [List.length_reverse] at h
  obtain ⟨hres, q1, hq1, hf1⟩ := h
  exact ⟨hres, by rw [QPop_nil _ k q1 hq1 hf1]⟩

/-- C16 at the empty store and `vs = ["a", "b", "c"]`. -/
theorem C16_push_then_pop_all_witness :
    NewDataStore "k" = none ∧ (∀ v ∈ ["a", "b", "c"], v ≠ "" ∧ noSpace v) ∧
    (popMany (QPush NewDataStore "k" ["a", "b", "c"]) "k" 3).2
      = [("c", true), ("b", true), ("a", true)] ∧
    (QPop (popMany (QPush NewDataStore "k" ["a", "b", "c"]) "k" 3).1 "k").2 = ("", false) :=
  ⟨rfl, by decide,
   C16_push_then_pop_all NewDataStore "k" ["a", "b", "c"] rfl (by decide)⟩

/-! ## Other keys -/

/-- C17: every store operation on a key `k` leaves every other key `k1` untouched: for each
of `Set(k, v)`, `QPush(k, vs)`, `QPop(k)` and `Delete(k)`, the result of `Get(k1)` is the
same after the operation as before it. -/
theorem C17_other_keys_untouched (ds : Store) (k k1 v : String) (vs : List String)
    (hne : k1 ≠ k) :
    Get (Set ds k v) k1 = Get ds k1 ∧
    Get (QPush ds k vs) k1 = Get ds k1 ∧
    Get (QPop ds k).1 k1 = Get ds k1 ∧
    Get (Delete ds k).1 k1 = Get ds k1 := by
  refine ⟨?_, ?_, ?_, ?_⟩
  · simp [Get, Set, assign_other ds k v k1 hne]
  · simp [Get, QPush, assign, hne]
  · simp [Get, QPop_other ds k k1 hne]
  · cases h : ds k <;> simp [Get, Delete, remove, h, hne]

/-- C17 at a store holding a scalar under `a` and a queue under `k`. -/
theorem C17_other_keys_untouched_witness :
    "a" ≠ "k" ∧
    Get (Set (QPush (Set NewDataStore "a" "1") "k" ["x"]) "k" "v") "a" = ("1", true) ∧
    Get (QPush (QPush (Set NewDataStore "a" "1") "k" ["x"]) "k" ["y"]) "a" = ("1", true) ∧
    Get (QPop (QPush (Set NewDataStore "a" "1") "k" ["x"]) "k").1 "a" = ("1", true) ∧
    Get (Delete (QPush (Set NewDataStore "a" "1") "k" ["x"]) "k").1 "a" = ("1", true) :=
  have h := C17_other_keys_untouched (QPush (Set NewDataStore "a" "1") "k" ["x"])
    "k" "a" "v" ["y"] (by decide)
  have hg : Get (QPush (Set NewDataStore "a" "1") "k" ["x"]) "a" = ("1", true) := by decide
  ⟨by decide, h.1.trans hg, h.2.1.trans hg, h.2.2.1.trans hg, h.2.2.2.trans hg⟩

end DataStore
